import Mathlib

/-!
Shallow embedding of `eidsr-zebra-sync.py`, an eIDSR → Zebra tracker
synchronization script.

Modelling conventions:
* Python dicts that are only read are association lists (insertion order)
  with `dictGet` returning the first binding; dicts that are mutated
  (`sync_queue`, the option-code comprehension) are built with `dictSet`,
  which mirrors CPython's insert-or-overwrite-in-place semantics.
* HTTP calls are oracles supplied through an `Env` record; a call that can
  raise is modelled with `Except Unit`.  A `RequestException` that the
  script does not catch is an uncaught exception, modelled as
  `Halt.exc`; `sys.exit(c)` is `Halt.exit c`.
* `get_all_enrollments` is modelled against the sequence of page responses
  the origin server produces for pages 1, 2, 3, …; beyond the end of that
  sequence the server answers with an empty page.  The second component of
  the result is the list of page numbers actually requested.
* Strings, lists and records mirror the JSON shapes the script reads;
  record fields the script accesses by key are total fields (the script
  indexes them directly, so a missing key would raise).
-/

namespace Zebra

/-- One `{"attribute": …, "value": …}` pair (a tracked-entity attribute).
`attributeId` models the JSON key `"attribute"` (a Lean keyword). -/
structure Attr where
  attributeId : String
  value : String
deriving DecidableEq

/-- One origin enrollment as returned for a tracked entity
(`enrollments[program,enrolledAt,attributes]`).  The origin record also
carries a `status`; the script's fetch omits it and never reads it. -/
structure SourceEnr where
  program : String
  enrolledAt : String
  status : String
  attributes : List Attr
deriving DecidableEq

/-- The per-tracked-entity fetch
(`fields=trackedEntity,orgUnit,attributes,enrollments[…]`). -/
structure TeiFull where
  orgUnit : String
  attributes : List Attr
  enrollments : List SourceEnr
deriving DecidableEq

/-- One value of the `options` table; `code`/`mappedCode` may be absent. -/
structure OptionRec where
  code : Option String
  mappedCode : Option String
deriving DecidableEq

/-- The `mappingDictionary` object: four lookup tables. -/
structure Mappings where
  organisationUnits : List (String × String)
  trackerPrograms : List (String × String)
  trackedEntityAttributesToTEI : List (String × String)
  options : List (String × OptionRec)
deriving DecidableEq

/-- A translated destination enrollment (built at lines 277-285). -/
structure TargetEnr where
  program : String
  enrollment : Option String
  orgUnit : String
  status : String
  enrolledAt : String
  attributes : List Attr
deriving DecidableEq

/-- A `sync_queue` value (built at lines 287-294). -/
structure QueueEntry where
  trackedEntity : String
  trackedEntityType : String
  program : String
  orgUnit : String
  attributes : List Attr
  enrollments : List TargetEnr
deriving DecidableEq

def PROG_EBS : String := "JRuLW57woOB"

def PROG_IBS : String := "xDsAFnQMmeU"

def TE_TYPE_ZEBRA : String := "QH1LBzGrk5g"

/-- Python `d.get(k)` / `d[k]` on an insertion-ordered association list. -/
def dictGet {β : Type} (d : List (String × β)) (k : String) : Option β :=
  (d.find? (fun p => p.1 == k)).map (fun p => p.2)

/-- Python `k in d`. -/
def dictHasKey {β : Type} (d : List (String × β)) (k : String) : Bool :=
  d.any (fun p => p.1 == k)

/-- Python `d[k] = v`: overwrite in place if the key is present, else
append a new binding at the end (CPython preserves insertion order). -/
def dictSet {β : Type} : List (String × β) → String → β → List (String × β)
  | [], k, v => [(k, v)]
  | p :: rest, k, v => if p.1 == k then (k, v) :: rest else p :: dictSet rest k v

/-- `page_size = 50` in `get_all_enrollments`. -/
def page_size : Nat := 50

/-- The page-by-page loop of `get_all_enrollments`, started at `page`.
The input list holds the server's successive responses for pages
`page, page+1, …`: either the decoded `instances` array or a raised
exception (network/decode failure on that request); past the end of the
list the server answers with an empty page.  Returns the Python result
(or the propagated exception — the loop body has no `try`) together with
the page numbers that were requested. -/
def get_all_enrollments_from {α : Type} (page : Nat) :
    List (Except Unit (List α)) → Except Unit (List α) × List Nat
  | [] => (Except.ok [], [page])
  | Except.error e :: _ => (Except.error e, [page])
  | Except.ok p :: rest =>
    if p.isEmpty then (Except.ok [], [page])
    else if p.length < page_size then (Except.ok p, [page])
    else
      let r := get_all_enrollments_from (page + 1) rest
      (r.1.map (fun l => p ++ l), page :: r.2)

/-- `get_all_enrollments`: the loop starts at `page = 1`. -/
def get_all_enrollments {α : Type} (pages : List (Except Unit (List α))) :
    Except Unit (List α) × List Nat :=
  get_all_enrollments_from 1 pages

/-- The option-code table of `map_attributes`:
`{opt["code"]: opt["mappedCode"] for opt in raw_options.values()
  if "code" in opt and "mappedCode" in opt}`. -/
def code_lookup_of (raw_options : List (String × OptionRec)) : List (String × String) :=
  raw_options.foldl
    (fun acc kv =>
      match kv.2.code, kv.2.mappedCode with
      | some c, some mc => dictSet acc c mc
      | _, _ => acc)
    []

/-- Python truthiness of the `allowed_ids` argument (default `None`;
`None` and an empty set are falsy). -/
def pyTruthySet (allowed_ids : Option (List String)) : Bool :=
  match allowed_ids with
  | none => false
  | some l => !l.isEmpty

/-- Python `src_id in allowed_ids` (only evaluated under a truthy set). -/
def containsId (allowed_ids : Option (List String)) (x : String) : Bool :=
  match allowed_ids with
  | none => false
  | some l => l.contains x

/-- `map_attributes(source_attrs, mappings, allowed_ids, log_warnings)`:
Code-to-Code attribute translation.  `log_warnings` only controls a log
line and has no effect on the result. -/
def map_attributes (source_attrs : List Attr) (mappings : Mappings)
    (allowed_ids : Option (List String)) (log_warnings : Bool) : List Attr :=
  let tea_map := mappings.trackedEntityAttributesToTEI
  let code_lookup := code_lookup_of mappings.options
  source_attrs.filterMap (fun attr =>
    let src_id := attr.attributeId
    let val := attr.value
    if pyTruthySet allowed_ids && !containsId allowed_ids src_id then none
    else
      match dictGet tea_map src_id with
      | some target_id => some ⟨target_id, (dictGet code_lookup val).getD val⟩
      | none => none)

/-- Python `s.split('/')` on the underlying character list: split at every
separator, keeping empty segments (so `"".split('/') == [""]` and
`"x/".split('/') == ["x", ""]`). -/
def split_slash_chars : List Char → List (List Char)
  | [] => [[]]
  | c :: cs =>
    let r := split_slash_chars cs
    if c = '/' then [] :: r
    else
      match r with
      | h :: t => (c :: h) :: t
      | [] => [[c]]

/-- `full_mapped_id.split('/')[-1]`: the final `/`-delimited segment. -/
def last_segment (s : String) : String :=
  ((split_slash_chars s.data).map (fun cs => String.mk cs)).getLastD ""

/-- `get_mapped_ou(source_ou_id, mappings)`: translate an eIDSR org unit,
extracting the clean UID, or `None` when the OU is unmapped. -/
def get_mapped_ou (source_ou_id : String) (mappings : Mappings) : Option String :=
  match dictGet mappings.organisationUnits source_ou_id with
  | some full_mapped_id => some (last_segment full_mapped_id)
  | none => none

/-- Line 255: `target_ou_to_use = mapped_ou if mapped_ou else
tei_full['orgUnit']` — Python truthiness, so both `None` and the empty
string fall back to the origin org unit. -/
def target_ou_of (mappings : Mappings) (source_ou : String) : String :=
  match get_mapped_ou source_ou mappings with
  | some s => if s == "" then source_ou else s
  | none => source_ou

/-- `post_individual_teis`: the `success_count` accumulated by the
per-record fallback loop; `individual_ok` tells whether the POST of one
record succeeds.  The Python function returns `success_count > 0`. -/
def post_individual_teis {τ : Type} (individual_ok : τ → Bool) (tei_list : List τ) : Nat :=
  tei_list.countP individual_ok

/-- Whether `post_data_to_zebra` triggers `run_zebra_analytics`: the
`finally` block fires it iff `batch_success` is true, which happens when
the batch POST succeeds, or — after a batch `RequestException` — when the
payload is non-empty (`if tei_list:`) and the individual fallback reports
at least one success. -/
def analytics_triggered {τ : Type} (batch_ok : Bool) (individual_ok : τ → Bool)
    (tei_list : List τ) : Bool :=
  if batch_ok then true
  else if tei_list.isEmpty then false
  else decide (0 < post_individual_teis individual_ok tei_list)

/-- The external world of one `run_sync` invocation.  The two servers'
responses are oracles; the date-window filter is folded into `fetched`
(it only changes the query parameters). -/
structure Env where
  /-- `load_mappings()`: `none` models a missing/unreadable config file,
  whose exception the script does not catch. -/
  mappingsFile : Option Mappings
  /-- `check_auth(eidsr_api, "eIDSR")`. -/
  eidsr_auth_ok : Bool
  /-- `check_auth(zebra_api, "Zebra")`. -/
  zebra_auth_ok : Bool
  /-- Tracked-entity ids of the enrollment stubs `get_all_enrollments`
  returns for a program (`enr['trackedEntity']` is the only field read). -/
  fetched : String → List String
  /-- `allowed_teas`: attribute ids declared on the given source program. -/
  program_teas : String → List String
  /-- The per-tracked-entity fetch (`tracker/trackedEntities/{tei_id}`). -/
  tei_full : String → TeiFull
  /-- `check_ou_exists_in_zebra`. -/
  ou_exists : String → Bool
  /-- The Zebra enrollment search by (trackedEntity, program, orgUnit):
  the `instances` arrays' enrollment ids, or a raised exception (the
  script catches it with a bare `except: pass`). -/
  zebra_enrollments : String → String → String → Except Unit (List String)
  /-- Whether the batch POST to `tracker` succeeds. -/
  batch_ok : Bool
  /-- Whether the individual fallback POST of one record succeeds. -/
  individual_ok : QueueEntry → Bool

/-- Lines 268-275: recover a pre-existing Zebra enrollment id
(`z_check[0]['enrollment'] if z_check else None`, `None` on exception). -/
def z_enr_id_of (env : Env) (tei_id target_prog target_ou : String) : Option String :=
  match env.zebra_enrollments tei_id target_prog target_ou with
  | Except.error _ => none
  | Except.ok l => l.head?

/-- Lines 277-285: translate one origin enrollment of the admitted
program.  The status is the literal `"ACTIVE"`. -/
def translate_enr (env : Env) (mappings : Mappings)
    (target_prog target_ou : String) (allowed : List String) (tei_id : String)
    (source_enr : SourceEnr) : TargetEnr :=
  { program := target_prog
    enrollment := z_enr_id_of env tei_id target_prog target_ou
    orgUnit := target_ou
    status := "ACTIVE"
    enrolledAt := source_enr.enrolledAt
    attributes := map_attributes source_enr.attributes mappings (some allowed) false }

/-- Lines 250-294 (minus the guards): the queue value stored for one
tracked entity under one program.  The enrollment list is the
`for source_enr in …: if source_enr['program'] == prog_id: append(…)`
loop — every matching origin enrollment, in fetch order. -/
def build_entry (env : Env) (mappings : Mappings)
    (prog_id target_prog tei_id : String) : QueueEntry :=
  let tf := env.tei_full tei_id
  let target_ou := target_ou_of mappings tf.orgUnit
  let allowed := env.program_teas prog_id
  { trackedEntity := tei_id
    trackedEntityType := TE_TYPE_ZEBRA
    program := target_prog
    orgUnit := target_ou
    attributes := map_attributes tf.attributes mappings (some allowed) true
    enrollments :=
      (tf.enrollments.filter (fun e => e.program == prog_id)).map
        (translate_enr env mappings target_prog target_ou allowed tei_id) }

/-- The destination-OU existence guard for one tracked entity
(`check_ou_exists_in_zebra(zebra_api, target_ou_to_use)`). -/
def ou_pass (env : Env) (mappings : Mappings) (tei_id : String) : Bool :=
  env.ou_exists (target_ou_of mappings (env.tei_full tei_id).orgUnit)

/-- The body of `for enr in instances:` (lines 246-294): skip when the
case is already queued and the current program is `PROG_EBS`; skip when
the target OU is absent on Zebra; otherwise insert-or-overwrite the
translated payload. -/
def process_instance (env : Env) (mappings : Mappings)
    (prog_id target_prog : String) (queue : List (String × QueueEntry))
    (tei_id : String) : List (String × QueueEntry) :=
  if dictHasKey queue tei_id && (prog_id == PROG_EBS) then queue
  else if !ou_pass env mappings tei_id then queue
  else dictSet queue tei_id (build_entry env mappings prog_id target_prog tei_id)

/-- One iteration of `for prog_id in source_programs:` (lines 233-294).
`mappings["trackerPrograms"][prog_id]` raises `KeyError` when the program
is unmapped. -/
def process_program (env : Env) (mappings : Mappings) (prog_id : String)
    (queue : List (String × QueueEntry)) :
    Except Unit (List (String × QueueEntry)) :=
  match dictGet mappings.trackerPrograms prog_id with
  | none => Except.error ()
  | some target_prog =>
    Except.ok ((env.fetched prog_id).foldl
      (process_instance env mappings prog_id target_prog) queue)

/-- How one `run_sync` invocation terminates abnormally. -/
inductive Halt where
  /-- An uncaught Python exception. -/
  | exc : Halt
  /-- `sys.exit(code)`. -/
  | exit : Nat → Halt
deriving DecidableEq

/-- `run_sync(period)`: load the mapping dictionary, check both systems'
credentials (`sys.exit(1)` if either fails), fill the sync queue over
`source_programs = [PROG_EBS, PROG_IBS]`, and — when the queue is
non-empty — post it, which decides whether analytics is triggered.  The
function returns `None`, so a completed run is process exit 0; the result
carries the final queue and the analytics flag. -/
def run_sync (env : Env) : Except Halt (List (String × QueueEntry) × Bool) :=
  match env.mappingsFile with
  | none => Except.error Halt.exc
  | some mappings =>
    if env.eidsr_auth_ok && env.zebra_auth_ok then
      match process_program env mappings PROG_EBS [] with
      | Except.error _ => Except.error Halt.exc
      | Except.ok q1 =>
        match process_program env mappings PROG_IBS q1 with
        | Except.error _ => Except.error Halt.exc
        | Except.ok q2 =>
          Except.ok (q2,
            if q2.isEmpty then false
            else analytics_triggered env.batch_ok env.individual_ok (q2.map Prod.snd))
    else Except.error (Halt.exit 1)

/-- The process exit code of one run: `some c` when the interpreter exits
with code `c` (normal completion is 0), `none` when the script dies from
an uncaught exception. -/
def run_sync_exit_code (env : Env) : Option Nat :=
  match run_sync env with
  | Except.ok _ => some 0
  | Except.error (Halt.exit c) => some c
  | Except.error Halt.exc => none

/-- The final sync queue of a completed run. -/
def runQueue (env : Env) : Option (List (String × QueueEntry)) :=
  match run_sync env with
  | Except.ok r => some r.1
  | Except.error _ => none

/-- Whether a completed run triggered the Zebra analytics job. -/
def runAnalytics (env : Env) : Option Bool :=
  match run_sync env with
  | Except.ok r => some r.2
  | Except.error _ => none

/-- The final queue entry of a completed run for one case id. -/
def finalEntry (env : Env) (tei_id : String) : Option QueueEntry :=
  (runQueue env).bind (fun q => dictGet q tei_id)

/-! ### Concrete fixtures used to evaluate the model -/

/-- A minimal mapping dictionary translating both source programs. -/
def mSync : Mappings :=
  { organisationUnits := []
    trackerPrograms := [(PROG_EBS, "ZPE"), (PROG_IBS, "ZPI")]
    trackedEntityAttributesToTEI := []
    options := [] }

/-- A run in which the same case `"T"` is fetched under both source
programs; every org unit exists on Zebra. -/
def envTwoProgs : Env :=
  { mappingsFile := some mSync
    eidsr_auth_ok := true
    zebra_auth_ok := true
    fetched := fun p => if p == PROG_EBS then ["T"] else if p == PROG_IBS then ["T"] else []
    program_teas := fun _ => []
    tei_full := fun _ => { orgUnit := "OU1", attributes := [], enrollments := [] }
    ou_exists := fun _ => true
    zebra_enrollments := fun _ _ _ => Except.ok []
    batch_ok := true
    individual_ok := fun _ => true }

/-- A run in which case `"T"` has two enrollments in `PROG_IBS`, the
later-created one listed first. -/
def envTwoEnrs : Env :=
  { mappingsFile := some mSync
    eidsr_auth_ok := true
    zebra_auth_ok := true
    fetched := fun p => if p == PROG_IBS then ["T"] else []
    program_teas := fun _ => []
    tei_full := fun _ =>
      { orgUnit := "OU1"
        attributes := []
        enrollments :=
          [ { program := PROG_IBS, enrolledAt := "2024-01-02"
              status := "COMPLETED", attributes := [] }
          , { program := PROG_IBS, enrolledAt := "2024-01-01"
              status := "CANCELLED", attributes := [] } ] }
    ou_exists := fun _ => true
    zebra_enrollments := fun _ _ _ => Except.ok []
    batch_ok := true
    individual_ok := fun _ => true }

/-- The translation of `envTwoEnrs`'s first enrollment of `"T"`. -/
def tEnrA : TargetEnr :=
  { program := "ZPI", enrollment := none, orgUnit := "OU1"
    status := "ACTIVE", enrolledAt := "2024-01-02", attributes := [] }

/-- The translation of `envTwoEnrs`'s second enrollment of `"T"`. -/
def tEnrB : TargetEnr :=
  { program := "ZPI", enrollment := none, orgUnit := "OU1"
    status := "ACTIVE", enrolledAt := "2024-01-01", attributes := [] }

/-- The queue entry `run_sync` builds for `"T"` under `envTwoEnrs`. -/
def entryTwoEnrs : QueueEntry :=
  { trackedEntity := "T", trackedEntityType := TE_TYPE_ZEBRA
    program := "ZPI", orgUnit := "OU1", attributes := []
    enrollments := [tEnrA, tEnrB] }

/-- The full result of `run_sync envTwoEnrs`. -/
def rTwoEnrs : List (String × QueueEntry) × Bool := ([("T", entryTwoEnrs)], true)

/-- `envTwoProgs` with the mapping-dictionary file missing. -/
def envNoCfg : Env := { envTwoProgs with mappingsFile := none }

/-- `envTwoProgs` with the Zebra credentials rejected. -/
def envAuthFail : Env := { envTwoProgs with zebra_auth_ok := false }

/-- `envTwoEnrs` with the batch POST rejected and every individual
fallback POST failing: total submission failure. -/
def envSubmitFail : Env :=
  { envTwoEnrs with batch_ok := false, individual_ok := fun _ => false }

/-- A mapping dictionary with one attribute mapping `t1 → z1` and one
option mapping code `M → MALE`. -/
def mOpt : Mappings :=
  { organisationUnits := []
    trackerPrograms := []
    trackedEntityAttributesToTEI := [("t1", "z1")]
    options := [("o1", { code := some "M", mappedCode := some "MALE" })] }

/-- A mapping dictionary whose OU entry for `ou1` maps to a path whose
final `/`-delimited segment is empty. -/
def mOuSlash : Mappings :=
  { organisationUnits := [("ou1", "x/")]
    trackerPrograms := []
    trackedEntityAttributesToTEI := []
    options := [] }

/-- A full page of 50 records. -/
def page50a : List Nat := List.replicate 50 0

/-- A second full page of 50 records. -/
def page50b : List Nat := List.replicate 50 1

/-- A final short page of 13 records. -/
def page13c : List Nat := List.replicate 13 2

/-! ### Association-list lemmas (Python dict semantics) -/

theorem dictGet_dictSet_self {β : Type} (d : List (String × β)) (k : String) (v : β) :
    dictGet (dictSet d k v) k = some v := by
  induction d with
  | nil => simp [dictSet, dictGet]
  | cons p rest ih =>
    cases hb : (p.1 == k) with
    | true => simp [dictSet, hb, dictGet]
    | false =>
      rw [dictSet, if_neg (by simp [hb])]
      rw [dictGet, List.find?_cons_of_neg _ (by simp [hb])]
      exact ih

theorem dictGet_dictSet_ne {β : Type} (d : List (String × β)) (k k' : String) (v : β)
    (h : k' ≠ k) : dictGet (dictSet d k v) k' = dictGet d k' := by
  induction d with
  | nil => simp [dictSet, dictGet, Ne.symm h]
  | cons p rest ih =>
    cases hb : (p.1 == k) with
    | true =>
      rw [dictSet, if_pos (by simp [hb])]
      have hp : p.1 = k := by simpa using hb
      rw [dictGet, dictGet, List.find?_cons_of_neg _ (by simp [Ne.symm h]),
        List.find?_cons_of_neg _ (by simp [hp, Ne.symm h])]
    | false =>
      rw [dictSet, if_neg (by simp [hb])]
      cases hb' : (p.1 == k') with
      | true => simp [dictGet, hb']
      | false =>
        rw [dictGet, List.find?_cons_of_neg _ (by simp [hb']),
          dictGet, List.find?_cons_of_neg _ (by simp [hb'])]
        exact ih

theorem mem_dictSet {β : Type} {d : List (String × β)} {k : String} {v : β}
    {kv : String × β} (h : kv ∈ dictSet d k v) : kv ∈ d ∨ kv = (k, v) := by
  induction d with
  | nil =>
    right
    simpa [dictSet] using h
  | cons p rest ih =>
    by_cases hp : (p.1 == k) = true
    · rw [dictSet, if_pos hp] at h
      rcases List.mem_cons.mp h with h' | h'
      · exact Or.inr h'
      · exact Or.inl (List.mem_cons_of_mem _ h')
    · rw [dictSet, if_neg hp] at h
      rcases List.mem_cons.mp h with h' | h'
      · left
        rw [h']
        exact List.mem_cons_self _ _
      · rcases ih h' with h'' | h''
        · exact Or.inl (List.mem_cons_of_mem _ h'')
        · exact Or.inr h''

/-! ### The queue-building loop -/

theorem prog_ibs_ne_ebs : (PROG_IBS == PROG_EBS) = false := rfl

/-- During the second (`PROG_IBS`) pass the already-queued guard is dead
code: only the OU guard decides, and an admitted case overwrites. -/
theorem process_instance_ibs (env : Env) (m : Mappings) (tp : String)
    (q : List (String × QueueEntry)) (t : String) :
    process_instance env m PROG_IBS tp q t =
      if ou_pass env m t then dictSet q t (build_entry env m PROG_IBS tp t)
      else q := by
  rw [process_instance, prog_ibs_ne_ebs]
  simp only [Bool.and_false, Bool.false_eq_true, if_false]
  cases h : ou_pass env m t <;> simp [h]

theorem foldl_ibs_preserve (env : Env) (m : Mappings) (tp tei : String)
    (l : List String) (q : List (String × QueueEntry))
    (hq : dictGet q tei = some (build_entry env m PROG_IBS tp tei)) :
    dictGet (l.foldl (process_instance env m PROG_IBS tp) q) tei
      = some (build_entry env m PROG_IBS tp tei) := by
  induction l generalizing q with
  | nil => exact hq
  | cons t rest ih =>
    rw [List.foldl_cons]
    apply ih
    rw [process_instance_ibs]
    by_cases hpass : ou_pass env m t = true
    · rw [if_pos hpass]
      by_cases ht : t = tei
      · subst ht
        exact dictGet_dictSet_self ..
      · rw [dictGet_dictSet_ne _ _ _ _ (fun e => ht e.symm)]
        exact hq
    · rw [if_neg hpass]
      exact hq

theorem foldl_ibs_hits (env : Env) (m : Mappings) (tp tei : String)
    (l : List String) (q : List (String × QueueEntry))
    (hpass : ou_pass env m tei = true) (hmem : tei ∈ l) :
    dictGet (l.foldl (process_instance env m PROG_IBS tp) q) tei
      = some (build_entry env m PROG_IBS tp tei) := by
  induction hmem generalizing q with
  | head rest =>
    rw [List.foldl_cons]
    apply foldl_ibs_preserve
    rw [process_instance_ibs, if_pos hpass]
    exact dictGet_dictSet_self ..
  | tail t hmem ih =>
    rw [List.foldl_cons]
    exact ih _

/-- A successful run's queue is the two program passes folded in order. -/
theorem run_sync_ok (env : Env) (m : Mappings) (pE pI : String)
    (h1 : env.mappingsFile = some m)
    (h2 : env.eidsr_auth_ok = true) (h3 : env.zebra_auth_ok = true)
    (h4 : dictGet m.trackerPrograms PROG_EBS = some pE)
    (h5 : dictGet m.trackerPrograms PROG_IBS = some pI) :
    runQueue env = some ((env.fetched PROG_IBS).foldl
      (process_instance env m PROG_IBS pI)
      ((env.fetched PROG_EBS).foldl (process_instance env m PROG_EBS pE) [])) := by
  rw [runQueue, run_sync, h1]
  simp [h2, h3, process_program, h4, h5]

/-- A case admitted during the `PROG_IBS` pass ends up in the final queue
with the entry built under `PROG_IBS` — whatever the `PROG_EBS` pass put
there first. -/
theorem finalEntry_ibs (env : Env) (m : Mappings) (pE pI tei : String)
    (h1 : env.mappingsFile = some m)
    (h2 : env.eidsr_auth_ok = true) (h3 : env.zebra_auth_ok = true)
    (h4 : dictGet m.trackerPrograms PROG_EBS = some pE)
    (h5 : dictGet m.trackerPrograms PROG_IBS = some pI)
    (h6 : tei ∈ env.fetched PROG_IBS) (h7 : ou_pass env m tei = true) :
    finalEntry env tei = some (build_entry env m PROG_IBS pI tei) := by
  rw [finalEntry, run_sync_ok env m pE pI h1 h2 h3 h4 h5]
  simp only [Option.some_bind]
  exact foldl_ibs_hits env m pI tei _ _ h7 h6

/-- Every entry the instance loop adds on top of `q` is a `build_entry`
image. -/
theorem mem_foldl_process (env : Env) (m : Mappings) (prog tp : String)
    (l : List String) (q : List (String × QueueEntry)) (kv : String × QueueEntry)
    (h : kv ∈ l.foldl (process_instance env m prog tp) q) :
    kv ∈ q ∨ ∃ t, kv = (t, build_entry env m prog tp t) := by
  induction l generalizing q with
  | nil => exact Or.inl h
  | cons t rest ih =>
    rw [List.foldl_cons] at h
    rcases ih _ h with h' | h'
    · rw [process_instance] at h'
      split at h'
      · exact Or.inl h'
      · split at h'
        · exact Or.inl h'
        · rcases mem_dictSet h' with h'' | h''
          · exact Or.inl h''
          · exact Or.inr ⟨t, h''⟩
    · exact Or.inr h'

theorem build_entry_status (env : Env) (m : Mappings) (prog tp t : String)
    {te : TargetEnr} (hte : te ∈ (build_entry env m prog tp t).enrollments) :
    te.status = "ACTIVE" := by
  simp only [build_entry] at hte
  rcases List.mem_map.mp hte with ⟨e, _, rfl⟩
  rfl

/-- A built entry holds one translated enrollment per origin enrollment
of the case in the admitting program, in original fetch order. -/
theorem build_entry_enrollments (env : Env) (m : Mappings) (prog tp t : String) :
    (build_entry env m prog tp t).enrollments.length
      = (env.tei_full t).enrollments.countP (fun e => e.program == prog)
    ∧ (build_entry env m prog tp t).enrollments.map (fun te => te.enrolledAt)
      = ((env.tei_full t).enrollments.filter
          (fun e => e.program == prog)).map (fun e => e.enrolledAt) := by
  constructor
  · simp [build_entry, List.countP_eq_length_filter]
  · simp [build_entry, translate_enr, List.map_map, Function.comp]

/-- The only `sys.exit` in `run_sync` is the authentication one, with
code 1; it is reached only after the mapping file loaded. -/
theorem run_sync_exit_inv (env : Env) (k : Nat)
    (hr : run_sync env = Except.error (Halt.exit k)) :
    k = 1 ∧ env.mappingsFile.isSome = true
      ∧ (env.eidsr_auth_ok && env.zebra_auth_ok) = false := by
  rw [run_sync] at hr
  split at hr
  · injection hr with h'
    exact Halt.noConfusion h'
  · rename_i m hm
    split at hr
    · split at hr
      · injection hr with h'
        exact Halt.noConfusion h'
      · split at hr
        · injection hr with h'
          exact Halt.noConfusion h'
        · exact Except.noConfusion hr
    · rename_i hauth
      injection hr with h'
      injection h' with hk
      refine ⟨hk.symm, ?_, ?_⟩
      · rw [hm]
        rfl
      · cases hb : (env.eidsr_auth_ok && env.zebra_auth_ok)
        · rfl
        · exact absurd hb hauth

/-! ### Claims -/

/-- C1 (counterexample): with case `"T"` fetched under both source
programs, the final queue entry for `"T"` carries the destination program
of `PROG_IBS` — the program processed second — and is *not* the payload
built while processing the first program `PROG_EBS`.  The spec's
first-write-wins invariant fails on the code. -/
theorem first_write_wins_cex :
    (finalEntry envTwoProgs "T").map (fun e => e.program) = some "ZPI"
    ∧ (build_entry envTwoProgs mSync PROG_EBS "ZPE" "T").program = "ZPE"
    ∧ ("T" ∈ envTwoProgs.fetched PROG_EBS ∧ "T" ∈ envTwoProgs.fetched PROG_IBS)
    ∧ finalEntry envTwoProgs "T" ≠ some (build_entry envTwoProgs mSync PROG_EBS "ZPE" "T") :=
  ⟨by decide, by decide, ⟨by decide, by decide⟩, by decide⟩

/-- C1 (amended): the `tei_id in sync_queue and prog_id == PROG_EBS`
guard only skips during the first program's pass, so a case admitted
under the later-processed program `PROG_IBS` always ends up with the
payload built under `PROG_IBS`, overwriting any `PROG_EBS` payload:
later-processed programs win, not earlier ones. -/
theorem later_program_overwrites (env : Env) (m : Mappings) (pE pI tei : String)
    (h1 : env.mappingsFile = some m)
    (h2 : env.eidsr_auth_ok = true) (h3 : env.zebra_auth_ok = true)
    (h4 : dictGet m.trackerPrograms PROG_EBS = some pE)
    (h5 : dictGet m.trackerPrograms PROG_IBS = some pI)
    (h6 : tei ∈ env.fetched PROG_IBS) (h7 : ou_pass env m tei = true) :
    finalEntry env tei = some (build_entry env m PROG_IBS pI tei) :=
  finalEntry_ibs env m pE pI tei h1 h2 h3 h4 h5 h6 h7

/-- C1 (witness): the amended claim evaluated on `envTwoProgs`. -/
theorem later_program_overwrites_witness :
    finalEntry envTwoProgs "T"
      = some (build_entry envTwoProgs mSync PROG_IBS "ZPI" "T") :=
  later_program_overwrites envTwoProgs mSync "ZPE" "ZPI" "T"
    rfl rfl rfl rfl rfl (by decide) rfl

/-- C2 (counterexample): case `"T"` has two enrollments in the same
program, yet the queued payload retains *both* (length 2), violating the
claimed at-most-one-per-(case, program) invariant — there is no
deduplication, and no creation timestamp is even fetched. -/
theorem enrollment_dedup_cex :
    (finalEntry envTwoEnrs "T").map (fun e => e.enrollments.length) = some 2
    ∧ (envTwoEnrs.tei_full "T").enrollments.countP
        (fun e => e.program == PROG_IBS) = 2
    ∧ ¬(2 ≤ 1) :=
  ⟨by decide, by decide, by decide⟩

/-- C2 (amended): every entry in the final sync queue of a completed
run — whichever of the two program passes admitted it — holds one
translated enrollment per origin enrollment of that case in the admitting
program, all of them, in original fetch order: no per-(case, program)
deduplication and no timestamp comparison. -/
theorem all_program_enrollments_retained (env : Env)
    (r : List (String × QueueEntry) × Bool) (kv : String × QueueEntry)
    (h : run_sync env = Except.ok r) (hkv : kv ∈ r.1) :
    ∃ prog, (prog = PROG_EBS ∨ prog = PROG_IBS)
      ∧ kv.2.enrollments.length
          = (env.tei_full kv.1).enrollments.countP (fun e => e.program == prog)
      ∧ kv.2.enrollments.map (fun te => te.enrolledAt)
          = ((env.tei_full kv.1).enrollments.filter
              (fun e => e.program == prog)).map (fun e => e.enrolledAt) := by
  rw [run_sync] at h
  split at h
  · exact Except.noConfusion h
  · rename_i m hm
    split at h
    · split at h
      · exact Except.noConfusion h
      · rename_i q1 hq1
        split at h
        · exact Except.noConfusion h
        · rename_i q2 hq2
          injection h with h'
          subst h'
          rw [process_program] at hq1 hq2
          split at hq1
          · exact Except.noConfusion hq1
          · rename_i pE hpE
            injection hq1 with hq1'
            split at hq2
            · exact Except.noConfusion hq2
            · rename_i pI hpI
              injection hq2 with hq2'
              subst hq1'
              subst hq2'
              rcases mem_foldl_process env m PROG_IBS pI _ _ kv hkv with h1 | ⟨t, rfl⟩
              · rcases mem_foldl_process env m PROG_EBS pE _ _ kv h1 with h2 | ⟨t, rfl⟩
                · cases h2
                · exact ⟨PROG_EBS, Or.inl rfl,
                    build_entry_enrollments env m PROG_EBS pE t⟩
              · exact ⟨PROG_IBS, Or.inr rfl,
                  build_entry_enrollments env m PROG_IBS pI t⟩
    · exact Except.noConfusion h

/-- C2 (witness): the amended claim applied to the queue entry of the
`envTwoEnrs` run, whose case has two enrollments in its program. -/
theorem all_program_enrollments_retained_witness :
    ∃ prog, (prog = PROG_EBS ∨ prog = PROG_IBS)
      ∧ entryTwoEnrs.enrollments.length
          = (envTwoEnrs.tei_full "T").enrollments.countP (fun e => e.program == prog)
      ∧ entryTwoEnrs.enrollments.map (fun te => te.enrolledAt)
          = ((envTwoEnrs.tei_full "T").enrollments.filter
              (fun e => e.program == prog)).map (fun e => e.enrolledAt) :=
  all_program_enrollments_retained envTwoEnrs rTwoEnrs ("T", entryTwoEnrs)
    rfl (by decide)

/-- C3 (counterexample): the origin enrollments of `"T"` have statuses
`COMPLETED` and `CANCELLED`, yet both queued destination enrollments carry
status `"ACTIVE"` — the status is not passed through. -/
theorem status_passthrough_cex :
    (finalEntry envTwoEnrs "T").map (fun e => e.enrollments.map (fun te => te.status))
      = some ["ACTIVE", "ACTIVE"]
    ∧ (envTwoEnrs.tei_full "T").enrollments.map (fun e => e.status)
      = ["COMPLETED", "CANCELLED"]
    ∧ ("ACTIVE" : String) ≠ "COMPLETED" :=
  ⟨by decide, by decide, by decide⟩

/-- C3 (amended): every enrollment of every entry in the final sync queue
of a completed run has the hard-coded status `"ACTIVE"`, whatever the
origin enrollment's status was (the fetch does not even request it). -/
theorem queued_status_always_active (env : Env)
    (r : List (String × QueueEntry) × Bool) (kv : String × QueueEntry) (te : TargetEnr)
    (h : run_sync env = Except.ok r) (hkv : kv ∈ r.1) (hte : te ∈ kv.2.enrollments) :
    te.status = "ACTIVE" := by
  rw [run_sync] at h
  split at h
  · exact Except.noConfusion h
  · rename_i m hm
    split at h
    · split at h
      · exact Except.noConfusion h
      · rename_i q1 hq1
        split at h
        · exact Except.noConfusion h
        · rename_i q2 hq2
          injection h with h'
          subst h'
          rw [process_program] at hq1 hq2
          split at hq1
          · exact Except.noConfusion hq1
          · rename_i pE hpE
            injection hq1 with hq1'
            split at hq2
            · exact Except.noConfusion hq2
            · rename_i pI hpI
              injection hq2 with hq2'
              subst hq1'
              subst hq2'
              rcases mem_foldl_process env m PROG_IBS pI _ _ kv hkv with h1 | ⟨t, rfl⟩
              · rcases mem_foldl_process env m PROG_EBS pE _ _ kv h1 with h2 | ⟨t, rfl⟩
                · cases h2
                · exact build_entry_status env m PROG_EBS pE t hte
              · exact build_entry_status env m PROG_IBS pI t hte
    · exact Except.noConfusion h

/-- C3 (witness): the amended claim applied to the first queued
enrollment of the `envTwoEnrs` run. -/
theorem queued_status_always_active_witness : tEnrA.status = "ACTIVE" :=
  queued_status_always_active envTwoEnrs rTwoEnrs ("T", entryTwoEnrs) tEnrA
    rfl (by decide) (by decide)

/-- C4 (counterexample): a fetch whose first page is full and whose second
page request raises does *not* return the 50 already-collected records —
the exception propagates to the caller. -/
theorem partial_page_results_cex :
    (get_all_enrollments [Except.ok page50a, Except.error ()]).1 = Except.error ()
    ∧ (get_all_enrollments [Except.ok page50a, Except.error ()]).1
        ≠ Except.ok page50a := by
  refine ⟨rfl, ?_⟩
  intro h
  have h0 : (get_all_enrollments [Except.ok page50a, Except.error ()]).1
      = Except.error () := rfl
  rw [h0] at h
  exact Except.noConfusion h

/-- C4 (amended): when a page request that the loop actually reaches
(every earlier page was full) fails, `get_all_enrollments` propagates the
exception instead of returning the records collected so far. -/
theorem page_error_propagates {α : Type} (ps : List (List α))
    (rest : List (Except Unit (List α))) (n : Nat)
    (hfull : ∀ p ∈ ps, p.length = page_size) :
    (get_all_enrollments_from n (ps.map Except.ok ++ Except.error () :: rest)).1
      = Except.error () := by
  induction ps generalizing n with
  | nil => rfl
  | cons p ps ih =>
    have hp : p.length = page_size := hfull p (List.mem_cons_self _ _)
    have hne : p.isEmpty = false := by
      cases p with
      | nil => simp [page_size] at hp
      | cons a as => rfl
    have hlt : ¬ p.length < page_size := by
      rw [hp]
      exact lt_irrefl _
    rw [List.map_cons, List.cons_append, get_all_enrollments_from]
    rw [if_neg (by simp [hne]), if_neg hlt]
    show ((get_all_enrollments_from (n + 1)
      (ps.map Except.ok ++ Except.error () :: rest)).1.map (fun l => p ++ l)) = _
    rw [ih (n + 1) (fun x hx => hfull x (List.mem_cons_of_mem _ hx))]
    rfl

/-- C4 (witness): the amended claim at one full page followed by a
failing request. -/
theorem page_error_propagates_witness :
    (get_all_enrollments_from 1 ([page50a].map Except.ok ++ Except.error () :: [])).1
      = Except.error () :=
  page_error_propagates [page50a] [] 1 (by decide)

/-- C5: pages are requested with `page_size = 50` starting at page 1;
sizes `[50, 50, 13]` yield the 113 concatenated records in exactly the 3
requests `[1, 2, 3]`, and an empty first page yields 0 records in 1
request (both when the server answers `[]` and when it has no pages at
all). -/
theorem pagination_termination :
    page_size = 50
    ∧ get_all_enrollments [Except.ok page50a, Except.ok page50b, Except.ok page13c]
        = (Except.ok (page50a ++ (page50b ++ page13c)), [1, 2, 3])
    ∧ (page50a ++ (page50b ++ page13c)).length = 113
    ∧ get_all_enrollments [Except.ok ([] : List Nat)] = (Except.ok [], [1])
    ∧ get_all_enrollments ([] : List (Except Unit (List Nat))) = (Except.ok [], [1]) :=
  ⟨rfl, rfl, rfl, rfl, rfl⟩

/-- C6: every attribute kept by `map_attributes` carries the
option-rewrite of some source attribute's value — the destination code
when the value matches a known origin option code (`dictGet … = some mc`,
so `getD` yields `mc`), the verbatim value otherwise; concretely, with
code `M ↦ MALE`, value `"M"` becomes `"MALE"` and `"X"` is unchanged. -/
theorem option_code_rewrite :
    (∀ (m : Mappings) (attrs : List Attr) (allowed : Option (List String))
        (lw : Bool) (out : Attr), out ∈ map_attributes attrs m allowed lw →
        ∃ a, a ∈ attrs
          ∧ out.value = (dictGet (code_lookup_of m.options) a.value).getD a.value)
    ∧ map_attributes [⟨"t1", "M"⟩, ⟨"t1", "X"⟩] mOpt none false
        = [⟨"z1", "MALE"⟩, ⟨"z1", "X"⟩] := by
  constructor
  · intro m attrs allowed lw out h
    simp only [map_attributes] at h
    rw [List.mem_filterMap] at h
    obtain ⟨a, ha, hfa⟩ := h
    refine ⟨a, ha, ?_⟩
    by_cases hg : (pyTruthySet allowed && !containsId allowed a.attributeId) = true
    · rw [if_pos hg] at hfa
      exact Option.noConfusion hfa
    · rw [if_neg hg] at hfa
      cases hl : dictGet m.trackedEntityAttributesToTEI a.attributeId with
      | none =>
        rw [hl] at hfa
        exact Option.noConfusion hfa
      | some tid =>
        rw [hl] at hfa
        cases Option.some.inj hfa
        rfl
  · decide

/-- C6 (witness): the general part applied to the attribute
`{"attribute": "t1", "value": "M"}`, emitted as `{"z1", "MALE"}`. -/
theorem option_code_rewrite_witness :
    ∃ a, a ∈ ([⟨"t1", "M"⟩] : List Attr)
      ∧ (Attr.mk "z1" "MALE").value
          = (dictGet (code_lookup_of mOpt.options) a.value).getD a.value :=
  option_code_rewrite.1 mOpt [⟨"t1", "M"⟩] none false ⟨"z1", "MALE"⟩ (by decide)

/-- C7 (counterexample): `ou1` *does* have an entry in the OU table, with
mapped path `"x/"` whose final `/`-segment is the empty string; the OU
actually used is the origin id `"ou1"`, not that final segment — the
claim's "if it has an entry, the final segment is used" fails because an
empty segment is falsy in Python. -/
theorem ou_last_segment_cex :
    dictGet mOuSlash.organisationUnits "ou1" = some "x/"
    ∧ last_segment "x/" = ""
    ∧ target_ou_of mOuSlash "ou1" = "ou1"
    ∧ ("ou1" : String) ≠ "" :=
  ⟨by decide, by decide, by decide, by decide⟩

/-- C7 (amended): if the origin OU has a mapping entry *and* the final
`/`-segment of the mapped path is non-empty, that segment is used;
otherwise (no entry, or empty final segment) the origin OU id is used
unchanged, with no error. -/
theorem ou_mapping_fallback (m : Mappings) (sou : String) :
    target_ou_of m sou =
      match dictGet m.organisationUnits sou with
      | some path => if last_segment path == "" then sou else last_segment path
      | none => sou := by
  cases h : dictGet m.organisationUnits sou with
  | none => simp [target_ou_of, get_mapped_ou, h]
  | some path => simp [target_ou_of, get_mapped_ou, h]

/-- C8: the analytics-recomputation trigger fires when the batch POST
succeeds, and after a batch rejection it fires exactly when the
individual fallback persisted at least one record. -/
theorem analytics_trigger_iff {τ : Type} (f : τ → Bool) (l : List τ) :
    analytics_triggered true f l = true
    ∧ (analytics_triggered false f l = true ↔ 0 < post_individual_teis f l) := by
  refine ⟨rfl, ?_⟩
  cases l with
  | nil => simp [analytics_triggered, post_individual_teis]
  | cons x xs => simp [analytics_triggered, post_individual_teis]

/-- C9 (counterexample): a missing mapping file does not exit with code 2
— the uncaught exception kills the interpreter (no `sys.exit` at all);
and a run whose batch POST and every individual fallback POST fail still
completes normally with exit code 0, not 3 (the queue was non-empty and
the analytics trigger did not fire, confirming total submission
failure). -/
theorem exit_code_cex :
    run_sync_exit_code envNoCfg = none
    ∧ run_sync_exit_code envNoCfg ≠ some 2
    ∧ run_sync_exit_code envSubmitFail = some 0
    ∧ run_sync_exit_code envSubmitFail ≠ some 3
    ∧ (runQueue envSubmitFail).map List.isEmpty = some false
    ∧ runAnalytics envSubmitFail = some false :=
  ⟨rfl, by decide, rfl, by decide, by decide, rfl⟩

/-- C9 (amended): the only exit codes `run_sync` can produce are 0
(normal completion, including nothing-to-sync and total submission
failure) and 1, and code 1 occurs only when the mapping file loaded and
an authentication check failed; there are no exit codes 2 or 3, and a
missing configuration dies by uncaught exception instead. -/
theorem exit_codes_zero_or_one (env : Env) (c : Nat)
    (h : run_sync_exit_code env = some c) :
    (c = 0 ∨ c = 1)
    ∧ (c = 1 → env.mappingsFile.isSome = true
        ∧ (env.eidsr_auth_ok && env.zebra_auth_ok) = false) := by
  cases hr : run_sync env with
  | ok r =>
    rw [run_sync_exit_code, hr] at h
    injection h with h'
    subst h'
    exact ⟨Or.inl rfl, fun hc => absurd hc (by decide)⟩
  | error hl =>
    cases hl with
    | exc =>
      rw [run_sync_exit_code, hr] at h
      exact Option.noConfusion h
    | exit k =>
      rw [run_sync_exit_code, hr] at h
      injection h with h'
      subst h'
      obtain ⟨hk, hsome, hauth⟩ := run_sync_exit_inv env k hr
      subst hk
      exact ⟨Or.inr rfl, fun _ => ⟨hsome, hauth⟩⟩

/-- C9 (witness): the amended claim at an authentication failure, which
exits with code 1. -/
theorem exit_codes_zero_or_one_witness :
    run_sync_exit_code envAuthFail = some 1
    ∧ ((1 = 0 ∨ 1 = 1)
        ∧ (1 = 1 → envAuthFail.mappingsFile.isSome = true
            ∧ (envAuthFail.eidsr_auth_ok && envAuthFail.zebra_auth_ok) = false)) :=
  ⟨rfl, exit_codes_zero_or_one envAuthFail 1 rfl⟩

/-- C10: an *empty* `allowed_ids` collection is falsy, so the
allowed-ids filter is skipped entirely: translation behaves exactly as
with `allowed_ids = None`, and every source attribute with a destination
mapping is emitted. -/
theorem empty_allowed_ids_no_filter :
    (∀ (attrs : List Attr) (m : Mappings) (lw : Bool),
        map_attributes attrs m (some []) lw = map_attributes attrs m none lw)
    ∧ (∀ (attrs : List Attr) (m : Mappings) (lw : Bool) (a : Attr) (tid : String),
        a ∈ attrs →
        dictGet m.trackedEntityAttributesToTEI a.attributeId = some tid →
        (⟨tid, (dictGet (code_lookup_of m.options) a.value).getD a.value⟩ : Attr)
          ∈ map_attributes attrs m (some []) lw) := by
  constructor
  · intro attrs m lw
    simp [map_attributes, pyTruthySet]
  · intro attrs m lw a tid ha hl
    simp only [map_attributes]
    rw [List.mem_filterMap]
    refine ⟨a, ha, ?_⟩
    simp [pyTruthySet, hl]

/-- C10 (witness): with `allowed_ids = ∅`, the mapped attribute `t1` is
still emitted. -/
theorem empty_allowed_ids_no_filter_witness :
    (⟨"z1", (dictGet (code_lookup_of mOpt.options) "M").getD "M"⟩ : Attr)
      ∈ map_attributes [⟨"t1", "M"⟩] mOpt (some []) false :=
  empty_allowed_ids_no_filter.2 [⟨"t1", "M"⟩] mOpt false ⟨"t1", "M"⟩ "z1"
    (by decide) (by decide)

end Zebra
